import Mathlib

/-!
Verification development for the python-liblognorm repository.

The repository as given contains only a thin Python binding
(src/__init__.py, re-exporting names from the compiled extension
module ._liblognorm) and packaging code (setup.py).  The specification
instead specifies the rule-based log-normalization CORE that such a
binding wraps; that core is not present under src/.  The core is
therefore modelled here from the specification text (definitions are
marked "Modelled from the spec:"), while the binding layer and the
packaging helper are embedded directly from the source files.

All text is modelled as lists of characters; machine behaviour that the
spec leaves open is fixed in the way the spec's own examples demand and
documented at the definition.
-/

namespace Lognorm

/-- Modelled from the spec: the Field-Type Registry's built-in extractor
types (section 4.1); the upstream engine code is missing from src/.
Identifiers: word, number, ipv4, quoted-string, rest. -/
inductive FieldType where
  | word
  | number
  | ipv4
  | quotedString
  | rest
deriving DecidableEq

/-- Modelled from the spec: the five error kinds of the core's error
surface (section 6): RuleSyntaxError, UnknownTypeError,
DuplicateTypeError, CompileError, ValueConversionError.  The engine code
is missing from src/. -/
inductive CoreError where
  | ruleSyntax (line col : Nat) (reason : String)
  | unknownType (tyName : String)
  | duplicateType (tyName : String)
  | compileConflict (tag1 tag2 : String)
  | valueConversion (fieldName reason : String)
deriving DecidableEq

/-- The spec error-kind name of a core error value. -/
def errorKindName : CoreError → String
  | .ruleSyntax _ _ _ => "RuleSyntaxError"
  | .unknownType _ => "UnknownTypeError"
  | .duplicateType _ => "DuplicateTypeError"
  | .compileConflict _ _ => "CompileError"
  | .valueConversion _ _ => "ValueConversionError"

/-- The five error kinds named by the spec's error surface (section 6). -/
def specErrorKinds : List String :=
  ["RuleSyntaxError", "UnknownTypeError", "DuplicateTypeError",
   "CompileError", "ValueConversionError"]

/-- Modelled from the spec: the built-in field-type registry,
name-to-type bindings installed once at process start (section 4.1). -/
def builtinRegistry : List (String × FieldType) :=
  [("word", .word), ("number", .number), ("ipv4", .ipv4),
   ("quoted-string", .quotedString), ("rest", .rest)]

/-- Registry lookup by type name (section 4.1 resolve, option form). -/
def resolveType (reg : List (String × FieldType)) (n : String) : Option FieldType :=
  (reg.find? (fun p => p.1 == n)).map (·.2)

/-- Modelled from the spec: resolve(name) fails with UnknownTypeError if
absent (section 4.1). -/
def resolveTypeE (reg : List (String × FieldType)) (n : String) :
    Except CoreError FieldType :=
  match resolveType reg n with
  | some t => .ok t
  | none => .error (.unknownType n)

/-- Modelled from the spec: register(name, recognizer) adds a type and
fails with DuplicateTypeError if the name is already registered
(section 4.1). -/
def registerType (reg : List (String × FieldType)) (n : String) (t : FieldType) :
    Except CoreError (List (String × FieldType)) :=
  if (reg.find? (fun p => p.1 == n)).isSome then .error (.duplicateType n)
  else .ok (reg ++ [(n, t)])

/-- Modelled from the spec: a RuleSegment is a tagged variant, Literal
text or a typed Field placeholder (section 3). -/
inductive Seg where
  | lit (text : List Char)
  | field (name : String) (ftype : FieldType)
deriving DecidableEq

/-- Modelled from the spec: a Rule owns an ordered segment sequence and
a rule tag returned on match (section 3). -/
structure Rule where
  tag : String
  segs : List Seg
deriving DecidableEq

/-- Descending-length candidate spans: all non-empty initial pieces of
`run`, longest first, each paired with the corresponding remainder
(the rest of `run` followed by `after`). -/
def descSpans (run after : List Char) : List (List Char × List Char) :=
  (List.range run.length).map
    (fun i => (run.take (run.length - i), run.drop (run.length - i) ++ after))

/-- Candidate spans of a digit run at the current offset, longest first. -/
def digitSpans (input : List Char) : List (List Char × List Char) :=
  descSpans (input.takeWhile Char.isDigit) (input.dropWhile Char.isDigit)

/-- Candidate spans for the number type: optional sign followed by a
non-empty digit run (section 4.1), longest first. -/
def numberSpans (input : List Char) : List (List Char × List Char) :=
  match input with
  | '+' :: rest => (digitSpans rest).map (fun sp => ('+' :: sp.1, sp.2))
  | '-' :: rest => (digitSpans rest).map (fun sp => ('-' :: sp.1, sp.2))
  | _ => digitSpans input

/-- One 1-3 digit octet followed by a literal dot; returns the consumed
characters and the remainder. -/
def octetDot (input : List Char) : Option (List Char × List Char) :=
  let g := input.takeWhile Char.isDigit
  if g.length = 0 ∨ 3 < g.length then none
  else
    match input.drop g.length with
    | '.' :: rest => some (g ++ ['.'], rest)
    | _ => none

/-- Candidate spans for the ipv4 type: four dot-separated 1-3 digit
groups (section 4.1; the 0-255 range is checked lazily by the result
builder).  Only the final group's length is ambiguous; candidates are
listed longest first. -/
def ipv4Spans (input : List Char) : List (List Char × List Char) :=
  match octetDot input with
  | none => []
  | some (p1, r1) =>
    match octetDot r1 with
    | none => []
    | some (p2, r2) =>
      match octetDot r2 with
      | none => []
      | some (p3, r3) =>
        let run := r3.takeWhile Char.isDigit
        let after := r3.dropWhile Char.isDigit
        let m := min run.length 3
        (List.range m).map
          (fun i => (p1 ++ p2 ++ p3 ++ run.take (m - i), run.drop (m - i) ++ after))

/-- Scan the characters following an opening double quote up to the
first unescaped closing quote, honouring backslash escapes
(section 4.1 quoted-string). -/
def quotedTail : List Char → Option (List Char × List Char)
  | [] => none
  | '\\' :: c :: rest =>
      (quotedTail rest).map (fun sp => ('\\' :: c :: sp.1, sp.2))
  | '\\' :: [] => none
  | '"' :: rest => some ([], rest)
  | c :: rest => (quotedTail rest).map (fun sp => (c :: sp.1, sp.2))

/-- Candidate spans for the quoted-string type: text between matching
double-quote delimiters honouring backslash escapes (section 4.1);
the span includes the delimiters. -/
def quotedSpans (input : List Char) : List (List Char × List Char) :=
  match input with
  | '"' :: rest =>
      match quotedTail rest with
      | some (content, r) => [('"' :: content ++ ['"'], r)]
      | none => []
  | _ => []

/-- Modelled from the spec: per-type recognizers (section 4.1), returning
every span the type can match starting exactly at the current offset,
longest first (the matcher backtracks over ambiguous extraction lengths,
section 2).  Zero-length matches are never returned: empty matches are
extraction failures (section 3).  word is a non-empty run of
non-whitespace characters; rest is all remaining input, non-empty. -/
def candidateSpans : FieldType → List Char → List (List Char × List Char)
  | .word, input =>
      descSpans (input.takeWhile (fun c => !c.isWhitespace))
        (input.dropWhile (fun c => !c.isWhitespace))
  | .number, input => numberSpans input
  | .ipv4, input => ipv4Spans input
  | .quotedString, input => quotedSpans input
  | .rest, input =>
      match input with
      | [] => []
      | _ => [(input, [])]

/-- Field bindings extracted during a traversal: name, declared type and
raw matched span, in rule-declaration order. -/
abbrev Bindings := List (String × FieldType × List Char)

/-- Consume an exact literal from the input (case-sensitive, byte-exact,
section 4.4); none when the input does not start with the literal. -/
def dropLit : List Char → List Char → Option (List Char)
  | [], input => some input
  | _ :: _, [] => none
  | c :: cs, d :: ds => if c = d then dropLit cs ds else none

/-- Modelled from the spec: the matcher engine's backtracking traversal
of one rule's segment sequence (section 4.4); the engine code is missing
from src/.  Returns every traversal that reaches the rule's end, in
deterministic exploration order (candidate spans longest first), each
with its extracted bindings and leftover input. -/
def parses : List Seg → List Char → List (Bindings × List Char)
  | [], input => [([], input)]
  | .lit s :: restSegs, input =>
      match dropLit s input with
      | some rest2 => parses restSegs rest2
      | none => []
  | .field nm ty :: restSegs, input =>
      (candidateSpans ty input).flatMap
        (fun sp => (parses restSegs sp.2).map
          (fun pr => ((nm, ty, sp.1) :: pr.1, pr.2)))

/-- A rule matches a line when some traversal reaches the rule's end
having consumed the entire input; the first such traversal in
exploration order wins (section 4.4: trailing unmatched input is a
failure, not a partial success). -/
def matchRule (r : Rule) (input : List Char) : Option Bindings :=
  ((parses r.segs input).find? (fun pr => pr.2.isEmpty)).map (·.1)

/-- Converted field value produced by the result builder (section 4.5). -/
inductive FieldValue where
  | vStr (s : String)
  | vInt (n : Int)
  | vErr (reason : String)
deriving DecidableEq

/-- Decimal digits to a natural number. -/
def digitsToNat (ds : List Char) : Nat :=
  ds.foldl (fun a c => a * 10 + (c.toNat - '0'.toNat)) 0

/-- Integer value of a number span: optional sign then digits. -/
def numberValue : List Char → Int
  | '-' :: ds => - (digitsToNat ds : Int)
  | '+' :: ds => (digitsToNat ds : Int)
  | ds => (digitsToNat ds : Int)

/-- The numeric octets of a raw ipv4 span. -/
def octetsOf (raw : List Char) : List Nat :=
  (raw.splitOn '.').map digitsToNat

/-- Modelled from the spec: per-field type conversion done by the result
builder (section 4.5): integer for number; an ipv4 span whose octets
exceed 255 gets a ValueConversionError attached to that field rather
than failing the whole match (the documented non-strict default). -/
def convertValue : FieldType → List Char → FieldValue
  | .number, raw => .vInt (numberValue raw)
  | .ipv4, raw =>
      if (octetsOf raw).all (· ≤ 255) then .vStr raw.asString
      else .vErr "octet out of range"
  | _, raw => .vStr raw.asString

/-- One output field: name, declared type, raw substring and converted
value (section 4.5). -/
structure FieldOut where
  name : String
  ftype : FieldType
  raw : List Char
  value : FieldValue
deriving DecidableEq

/-- Modelled from the spec: the result builder materializes each
extracted field in rule-declaration order (section 4.5). -/
def buildFields (bs : Bindings) : List FieldOut :=
  bs.map (fun b => ⟨b.1, b.2.1, b.2.2, convertValue b.2.1 b.2.2⟩)

/-- Modelled from the spec: the match outcome, Matched carrying the rule
tag and ordered fields, or NoMatch (section 3; ties are collapsed to a
single deterministic winner, so no AmbiguousMatch value is produced). -/
inductive MatchResult where
  | matched (tag : String) (fields : List FieldOut)
  | noMatch
deriving DecidableEq

/-- Modelled from the spec: the compiled matching structure.  The trie of
section 4.3 is a cost-sharing representation; its observable content is
the validated ordered rule list, which is what is embedded here.  Built
once, read-only afterwards. -/
structure Compiled where
  rules : List Rule
deriving DecidableEq

/-- First pair of rules with identical segment sequences but different
tags, if any (section 4.3's eager configuration check). -/
def findConflict : List Rule → Option (String × String)
  | [] => none
  | r :: restRules =>
      match restRules.find? (fun r2 => r2.segs == r.segs && r2.tag != r.tag) with
      | some r2 => some (r.tag, r2.tag)
      | none => findConflict restRules

/-- Modelled from the spec: compile(rules) builds the shared matching
structure, failing eagerly with CompileError carrying the conflicting
rule tags when two rules are structurally identical with different tags
(section 4.3). -/
def compile (rules : List Rule) : Except CoreError Compiled :=
  match findConflict rules with
  | some (t1, t2) => .error (.compileConflict t1 t2)
  | none => .ok ⟨rules⟩

/-- Try the compiled structure's rules in deterministic declared order;
the first rule whose traversal fully consumes the input wins
(section 4.4's deterministic candidate order). -/
def lnMatchGo (input : List Char) : List Rule → MatchResult
  | [] => .noMatch
  | r :: restRules =>
      match matchRule r input with
      | some bs => .matched r.tag (buildFields bs)
      | none => lnMatchGo input restRules

/-- Modelled from the spec: match(compiled, line) (section 4.4); the
engine code is missing from src/.  A line that matches no rule yields
the ordinary NoMatch value; the function is total, so no exception or
panic can occur. -/
def lnMatch (c : Compiled) (input : List Char) : MatchResult :=
  lnMatchGo input c.rules

/-- Modelled from the spec: normalize(compiled, line) over host strings
(section 6). -/
def normalize (c : Compiled) (line : String) : MatchResult :=
  lnMatch c line.toList

/-- Merge one literal character onto the front of a segment sequence,
extending an existing leading literal segment. -/
def consLit (c : Char) : List Seg → List Seg
  | .lit s :: segs => .lit (c :: s) :: segs
  | segs => .lit [c] :: segs

/-- Build one field segment from the content of a `%name:type%`
placeholder, delegating the type name to the registry (section 4.2);
an unknown type surfaces UnknownTypeError, a missing or empty part is a
RuleSyntaxError at the placeholder's column. -/
def mkFieldSeg (lineNo pcol : Nat) (content : List Char) : Except CoreError Seg :=
  let nm := content.takeWhile (fun c => !(c = ':'))
  match content.drop nm.length with
  | ':' :: ty =>
      if nm = [] then .error (.ruleSyntax lineNo pcol "empty field name")
      else if ty = [] then .error (.ruleSyntax lineNo pcol "empty type name")
      else
        match resolveType builtinRegistry ty.asString with
        | some t => .ok (.field nm.asString t)
        | none => .error (.unknownType ty.asString)
  | _ => .error (.ruleSyntax lineNo pcol "field placeholder missing type")

/-- Modelled from the spec: single-pass left-to-right rule-text scan
(section 4.2); the parser code is missing from src/.  Literal text is
interspersed with `%name:type%` placeholders; `%%` escapes a literal
percent sign; an unterminated placeholder is a RuleSyntaxError.  The
third argument carries the open placeholder's start column and
accumulated content, if one is open. -/
def parseGo (lineNo : Nat) :
    List Char → Nat → Option (Nat × List Char) → Except CoreError (List Seg)
  | [], _, none => .ok []
  | [], _, some (pcol, _) =>
      .error (.ruleSyntax lineNo pcol "unterminated field placeholder")
  | '%' :: '%' :: rest, col, none =>
      (parseGo lineNo rest (col + 2) none).map (consLit '%')
  | '%' :: rest, col, none => parseGo lineNo rest (col + 1) (some (col, []))
  | '%' :: rest, col, some (pcol, acc) =>
      match mkFieldSeg lineNo pcol acc with
      | .error e => .error e
      | .ok seg => (parseGo lineNo rest (col + 1) none).map (seg :: ·)
  | c :: rest, col, none => (parseGo lineNo rest (col + 1) none).map (consLit c)
  | c :: rest, col, some (pcol, acc) =>
      parseGo lineNo rest (col + 1) (some (pcol, acc ++ [c]))

/-- Names of the field segments of a rule, in declaration order. -/
def fieldNames : List Seg → List String
  | [] => []
  | .lit _ :: rest => fieldNames rest
  | .field nm _ :: rest => nm :: fieldNames rest

/-- Pairwise distinctness of a list of names. -/
def distinctNames : List String → Bool
  | [] => true
  | n :: rest => !(rest.contains n) && distinctNames rest

/-- Modelled from the spec: parse(rule_text, line_number) -> Rule
(section 4.2); the parser code is missing from src/.  Fails with
RuleSyntaxError on an empty rule body, a malformed or unterminated
placeholder, or a duplicate field name within one rule, and surfaces
UnknownTypeError for an unknown type name.  The rule tag accompanies the
pattern text (the spec leaves the tag syntax to the implementation). -/
def parseRule (tag : String) (text : String) (lineNo : Nat) : Except CoreError Rule :=
  match text.toList with
  | [] => .error (.ruleSyntax lineNo 0 "empty rule body")
  | cs =>
      match parseGo lineNo cs 0 none with
      | .error e => .error e
      | .ok segs =>
          if distinctNames (fieldNames segs) then .ok ⟨tag, segs⟩
          else .error (.ruleSyntax lineNo 0 "duplicate field name")

/-- Parse a numbered list of (tag, pattern) lines into rules. -/
def parseAll : Nat → List (String × String) → Except CoreError (List Rule)
  | _, [] => .ok []
  | i, (tag, text) :: rest =>
      match parseRule tag text i with
      | .error e => .error e
      | .ok r =>
          match parseAll (i + 1) rest with
          | .error e => .error e
          | .ok rs => .ok (r :: rs)

/-- Modelled from the spec: load_rules(source) -> CompiledStructure or a
configuration error (section 6): parse every line, then compile. -/
def loadRules (lines : List (String × String)) : Except CoreError Compiled :=
  match parseAll 1 lines with
  | .error e => .error e
  | .ok rs => compile rs

/-- Substitute one sample value per field placeholder into a rule's
literal skeleton, producing an input line (the round-trip construction
of section 8). -/
def substSegs : List Seg → List (List Char) → List Char
  | [], _ => []
  | .lit s :: rest, vs => s ++ substSegs rest vs
  | .field _ _ :: _, [] => []
  | .field _ _ :: rest, v :: vs => v ++ substSegs rest vs

/-- Bindings that pair each field placeholder with its sample value, in
declaration order. -/
def zipFields : List Seg → List (List Char) → Bindings
  | [], _ => []
  | .lit _ :: rest, vs => zipFields rest vs
  | .field _ _ :: _, [] => []
  | .field nm ty :: rest, v :: vs => (nm, ty, v) :: zipFields rest vs

/-- A sample value is valid for a field type when the type recognizes
exactly the whole value as its first candidate span. -/
def validSample (ty : FieldType) (v : List Char) : Bool :=
  (candidateSpans ty v).head? == some (v, [])

/-- Sample values suitable for an unambiguous round trip: one value per
field placeholder, and at each placeholder the sample is the first
(longest) candidate span its type recognizes at that position in the
constructed line. -/
def goodSamples : List Seg → List (List Char) → Bool
  | [], [] => true
  | [], _ :: _ => false
  | .lit _ :: rest, vs => goodSamples rest vs
  | .field _ _ :: _, [] => false
  | .field _ ty :: rest, v :: vs =>
      ((candidateSpans ty (v ++ substSegs rest vs)).head?
          == some (v, substSegs rest vs))
        && goodSamples rest vs

/-- Every field segment of the sequence has a non-rest type. -/
def allNonRest : List Seg → Bool
  | [] => true
  | .lit _ :: rest => allNonRest rest
  | .field _ ty :: rest => (ty != .rest) && allNonRest rest

/-- The last segment of the sequence is a rest-typed field. -/
def lastIsRest : List Seg → Bool
  | [] => false
  | [.field _ .rest] => true
  | [_] => false
  | _ :: rest => lastIsRest rest

/-- The first segment of each rule is a literal sharing a non-empty
common start with the first literal of some rule of the set (the
prefix-sharing situation of section 4.3). -/
def sharesLitHead (r : Rule) (rs : List Rule) : Bool :=
  rs.any (fun r2 =>
    match r.segs, r2.segs with
    | .lit (c :: _) :: _, .lit (c2 :: _) :: _ => c = c2
    | _, _ => false)

end Lognorm

namespace Binding

/-- The attribute table of a compiled extension module: a partial map
from attribute names to objects of the host's object type. -/
structure ExtModule (α : Type) where
  attrs : String → Option α

/-- The names listed in the from-import statement of src/__init__.py,
in source order. -/
def importedNames : List String :=
  ["ConfigError", "Error", "Lognorm", "MemoryError", "ParserError", "RuleError"]

/-- The `__all__` list of src/__init__.py, verbatim. -/
def dunder_all : List String :=
  ["Lognorm", "Error", "MemoryError", "ConfigError", "ParserError", "RuleError"]

/-- Look up each requested name in the extension module left to right;
the first missing name aborts the import with an ImportError, exactly as
Python's from-import does. -/
def collectAttrs {α : Type} (m : ExtModule α) :
    List String → Except String (List (String × α))
  | [] => .ok []
  | n :: rest =>
      match m.attrs n with
      | none => .error ("ImportError: cannot import name " ++ n)
      | some v =>
          match collectAttrs m rest with
          | .ok ns => .ok ((n, v) :: ns)
          | .error e => .error e

/-- Importing the package runs `from ._liblognorm import (...)` of
src/__init__.py: it fails when the compiled extension is absent or when
any of the six names is missing, and otherwise binds each name in the
package namespace to the extension's object. -/
def initPackage {α : Type} (ext : Option (ExtModule α)) :
    Except String (List (String × α)) :=
  match ext with
  | none => .error "ModuleNotFoundError: liblognorm._liblognorm"
  | some m => collectAttrs m importedNames

/-- Look a name up in the package namespace. -/
def nsLookup {α : Type} (ns : List (String × α)) (n : String) : Option α :=
  (ns.find? (fun p => p.1 == n)).map (·.2)

/-- Python name resolution inside the package module: the module
namespace first, the builtins only as a fallback. -/
def resolveName {α : Type} (ns : List (String × α))
    (builtins : String → Option α) (n : String) : Option α :=
  match nsLookup ns n with
  | some v => some v
  | none => builtins n

end Binding

namespace Setup

/-- Outcome of one subprocess.check_output invocation of
`pkg-config <flag> <package>` in setup.py: the binary can be absent
(FileNotFoundError), exit non-zero (CalledProcessError), or produce
stdout. -/
inductive SubprocResult where
  | fileNotFound
  | calledProcessError (code : Int)
  | output (stdout : String)

/-- Whitespace as Python's shlex and str.strip treat it. -/
def isShWs (c : Char) : Bool :=
  c = ' ' || c = '\t' || c = '\r' || c = '\n'

/-- Python str.strip(): whitespace removed from both ends. -/
def stripChars (cs : List Char) : List Char :=
  ((cs.dropWhile isShWs).reverse.dropWhile isShWs).reverse

/-- Close the current token, if one is open. -/
def flushTok (acc : List String) (cur : Option (List Char)) : List String :=
  match cur with
  | some t => acc ++ [t.asString]
  | none => acc

/-- Quoting state of the shlex scanner. -/
inductive QuoteMode where
  | norm
  | single
  | double
deriving DecidableEq

/-- POSIX-mode shlex scanner, modelling Python's shlex.split as used by
setup.py: whitespace-separated tokens, single and double quotes,
backslash escapes (inside double quotes only before a quote or a
backslash); none models the ValueError Python raises on an unterminated
quote or a trailing escape. -/
def shlexGo (acc : List String) (cur : Option (List Char)) (mode : QuoteMode) :
    List Char → Option (List String)
  | [] =>
      match mode with
      | .norm => some (flushTok acc cur)
      | _ => none
  | c :: rest =>
      match mode with
      | .norm =>
          if isShWs c then shlexGo (flushTok acc cur) none .norm rest
          else if c = '\'' then shlexGo acc (some (cur.getD [])) .single rest
          else if c = '"' then shlexGo acc (some (cur.getD [])) .double rest
          else if c = '\\' then
            match rest with
            | [] => none
            | d :: rest2 => shlexGo acc (some (cur.getD [] ++ [d])) .norm rest2
          else shlexGo acc (some (cur.getD [] ++ [c])) .norm rest
      | .single =>
          if c = '\'' then shlexGo acc cur .norm rest
          else shlexGo acc (some (cur.getD [] ++ [c])) .single rest
      | .double =>
          if c = '"' then shlexGo acc cur .norm rest
          else if c = '\\' then
            match rest with
            | [] => none
            | d :: rest2 =>
                if d = '"' || d = '\\' then
                  shlexGo acc (some (cur.getD [] ++ [d])) .double rest2
                else shlexGo acc (some (cur.getD [] ++ ['\\', d])) .double rest2
          else shlexGo acc (some (cur.getD [] ++ [c])) .double rest

/-- Python shlex.split in POSIX mode; none is the uncaught ValueError. -/
def shlexSplit (cs : List Char) : Option (List String) :=
  shlexGo [] none .norm cs

/-- pkg_config_flags of setup.py: runs `pkg-config <flag> <package>`,
returns the shlex-tokenized, stripped stdout on success and the empty
list when the binary is absent or exits non-zero; any shlex ValueError
is not caught by the except clause and propagates.  The runner argument
stands for the state of the build machine; it receives (flag, package)
in the order the argv is built. -/
def pkg_config_flags (runner : String → String → SubprocResult)
    (package flag : String) : Except String (List String) :=
  match runner flag package with
  | .fileNotFound => .ok []
  | .calledProcessError _ => .ok []
  | .output out =>
      match shlexSplit (stripChars out.toList) with
      | some toks => .ok toks
      | none => .error "ValueError: shlex tokenization failed"

end Setup

namespace Examples

open Lognorm Binding Setup

/-- A one-rule set used to instantiate the determinism statement. -/
def detSet : Compiled := ⟨[⟨"w", [Seg.lit ['a']]⟩]⟩

/-- Segment sequence of a well-separated round-trip rule: a number field
followed by a literal that no digit can extend. -/
def rtSegs : List Seg := [Seg.field "a" .number, Seg.lit [' ', 'e', 'n', 'd']]

/-- The well-separated round-trip rule itself. -/
def rtRule : Rule := ⟨"t", rtSegs⟩

/-- Sample values for the round-trip rule. -/
def rtVals : List (List Char) := [['4', '2']]

/-- A rule with two adjacent number fields: the shape on which the
literal round-trip claim fails. -/
def adjRule : Rule := ⟨"t", [Seg.field "a" .number, Seg.field "b" .number]⟩

/-- The compiled singleton set of the adjacent-fields rule. -/
def adjCompiled : Compiled := ⟨[adjRule]⟩

/-- First of two structurally identical rules with different tags. -/
def ruleAlpha : Rule := ⟨"alpha", [Seg.lit ['x']]⟩

/-- Second of two structurally identical rules with different tags. -/
def ruleBeta : Rule := ⟨"beta", [Seg.lit ['x']]⟩

/-- A rule list with a tag conflict. -/
def conflictRules : List Rule := [ruleAlpha, ruleBeta]

/-- A one-rule set whose only rule consumes a strict part of "abc". -/
def partialSet : Compiled := ⟨[⟨"r", [Seg.lit ['a', 'b']]⟩]⟩

/-- Base rule set for the prefix-sharing statement. -/
def baseRules : List Rule := [⟨"r1", [Seg.lit ['a', 'b']]⟩]

/-- A new rule sharing the literal head 'a' with the base set. -/
def newRule : Rule := ⟨"r2", [Seg.lit ['a', 'x']]⟩

/-- A rule set without a catch-all rule. -/
def noCatchAllSet : Compiled :=
  ⟨[⟨"r1", [Seg.lit "error: ".toList, Seg.field "code" .number]⟩]⟩

/-- A build machine on which pkg-config prints two flags. -/
def runnerOk : String → String → SubprocResult :=
  fun _ _ => .output "-I/usr/include -llognorm"

/-- A build machine without pkg-config installed. -/
def runnerMissing : String → String → SubprocResult :=
  fun _ _ => .fileNotFound

/-- An extension module defining all six expected names. -/
def extFull : ExtModule Nat :=
  ⟨fun n => if n = "MemoryError" then some 7
    else if importedNames.contains n then some 1 else none⟩

/-- The package namespace obtained by importing against `extFull`. -/
def nsFull : List (String × Nat) :=
  [("ConfigError", 1), ("Error", 1), ("Lognorm", 1), ("MemoryError", 7),
   ("ParserError", 1), ("RuleError", 1)]

/-- Builtins table binding every name, including MemoryError, to 99. -/
def builtinsAll : String → Option Nat := fun _ => some 99

end Examples

namespace Lognorm

/-- Consuming a literal from input that starts with it succeeds and
leaves the rest. -/
theorem dropLit_self_append (s x : List Char) : dropLit s (s ++ x) = some x := by
  induction s with
  | nil => rfl
  | cons c cs ih => simp [dropLit, ih]

/-- A successful compile returns the validated rule list unchanged. -/
theorem compile_ok {rs : List Rule} {c : Compiled}
    (h : compile rs = .ok c) : c.rules = rs := by
  unfold compile at h
  cases hf : findConflict rs with
  | none => rw [hf] at h; cases h; rfl
  | some p => rw [hf] at h; cases p; cases h

/-- When no rule of the list matches the line, the ordered scan returns
NoMatch. -/
theorem lnMatchGo_none {input : List Char} :
    ∀ {rules : List Rule}, (∀ r ∈ rules, matchRule r input = none) →
      lnMatchGo input rules = .noMatch := by
  intro rules
  induction rules with
  | nil => intro _; rfl
  | cons r rest ih =>
    intro h
    have hr : matchRule r input = none := h r (List.mem_cons_self r rest)
    simp only [lnMatchGo, hr]
    exact ih (fun r' hm => h r' (List.mem_cons_of_mem r hm))

/-- A Matched outcome of the ordered scan comes from a rule of the list
whose traversal reached the rule's end with no input left over. -/
theorem lnMatchGo_matched {input : List Char} :
    ∀ {rules : List Rule} {tag : String} {flds : List FieldOut},
      lnMatchGo input rules = .matched tag flds →
      ∃ r, r ∈ rules ∧ r.tag = tag ∧
        ∃ pr, pr ∈ parses r.segs input ∧ pr.2 = [] ∧ flds = buildFields pr.1 := by
  intro rules
  induction rules with
  | nil => intro tag flds h; cases h
  | cons r rest ih =>
    intro tag flds h
    cases hm : matchRule r input with
    | some bs =>
      simp only [lnMatchGo, hm] at h
      cases h
      rcases Option.map_eq_some'.mp hm with ⟨pr, hfind, hbs⟩
      refine ⟨r, List.mem_cons_self r rest, rfl, pr,
        List.mem_of_find?_eq_some hfind, ?_, by rw [hbs]⟩
      have := List.find?_some hfind
      simpa [List.isEmpty_iff] using this
    | none =>
      simp only [lnMatchGo, hm] at h
      rcases ih h with ⟨r', hmem, htag, pr, hpr, hleft, hf⟩
      exact ⟨r', List.mem_cons_of_mem r hmem, htag, pr, hpr, hleft, hf⟩

/-- Appending rules after a set in which some rule already matches the
line does not change the scan's outcome. -/
theorem lnMatchGo_append {input : List Char} (S : List Rule) :
    ∀ {R : List Rule},
      (∃ r0, r0 ∈ R ∧ (matchRule r0 input).isSome = true) →
      lnMatchGo input (R ++ S) = lnMatchGo input R := by
  intro R
  induction R with
  | nil => rintro ⟨r0, hmem, _⟩; cases hmem
  | cons a R' ih =>
    rintro ⟨r0, hmem, hsome⟩
    cases hm : matchRule a input with
    | some bs => simp [lnMatchGo, hm]
    | none =>
      simp only [List.cons_append, lnMatchGo, hm]
      rcases List.mem_cons.mp hmem with rfl | hmem'
      · rw [hm] at hsome; cases hsome
      · exact ih ⟨r0, hmem', hsome⟩

/-- Every completed traversal of a segment sequence ending in a rest
field has consumed the input to end-of-line. -/
theorem parses_lastRest :
    ∀ {segs : List Seg} {input : List Char} {pr : Bindings × List Char},
      lastIsRest segs = true → pr ∈ parses segs input → pr.2 = [] := by
  intro segs
  induction segs with
  | nil => intro input pr h _; cases h
  | cons seg rest ih =>
    intro input pr h hm
    cases rest with
    | nil =>
      cases seg with
      | lit s => simp [lastIsRest] at h
      | field nm ty =>
        cases ty <;> simp [lastIsRest] at h
        cases input with
        | nil => simp [parses, candidateSpans] at hm
        | cons c cs =>
          simp [parses, candidateSpans] at hm
          rw [hm]
    | cons seg2 rest2 =>
      have hlast : lastIsRest (seg2 :: rest2) = true := by
        cases seg with
        | lit s => simpa [lastIsRest] using h
        | field nm ty => simpa [lastIsRest] using h
      cases seg with
      | lit s =>
        simp only [parses] at hm
        cases hd : dropLit s input with
        | none => rw [hd] at hm; cases hm
        | some rest3 =>
          rw [hd] at hm
          exact ih hlast hm
      | field nm ty =>
        simp only [parses] at hm
        rcases List.mem_flatMap.mp hm with ⟨sp, _, hmem2⟩
        rcases List.mem_map.mp hmem2 with ⟨q, hq, hpr⟩
        have : pr.2 = q.2 := by rw [← hpr]
        rw [this]
        exact ih hlast hq

/-- If the rule list holds two rules with equal segment sequences and
different tags, the eager conflict scan finds a pair. -/
theorem findConflict_isSome :
    ∀ {rules : List Rule} {r1 r2 : Rule},
      r1 ∈ rules → r2 ∈ rules → r1.segs = r2.segs → r1.tag ≠ r2.tag →
      (findConflict rules).isSome = true := by
  intro rules
  induction rules with
  | nil => intro r1 r2 h1; cases h1
  | cons a rest ih =>
    intro r1 r2 h1 h2 hs ht
    cases hfind : rest.find? (fun r2' => r2'.segs == a.segs && r2'.tag != a.tag) with
    | some y => simp [findConflict, hfind]
    | none =>
      have hnone := List.find?_eq_none.mp hfind
      simp only [findConflict, hfind]
      rcases List.mem_cons.mp h1 with rfl | h1' <;> rcases List.mem_cons.mp h2 with rfl | h2'
      · exact absurd rfl ht
      · refine absurd ?_ (hnone r2 h2')
        simp only [Bool.and_eq_true, beq_iff_eq, bne_iff_ne]
        exact ⟨hs.symm, fun hx => ht hx.symm⟩
      · refine absurd ?_ (hnone r1 h1')
        simp only [Bool.and_eq_true, beq_iff_eq, bne_iff_ne]
        exact ⟨hs, ht⟩
      · exact ih h1' h2' hs ht

/-- The pair of tags reported by the conflict scan belongs to two rules
of the list with equal segment sequences and different tags. -/
theorem findConflict_spec :
    ∀ {rules : List Rule} {t1 t2 : String},
      findConflict rules = some (t1, t2) →
      t1 ≠ t2 ∧ ∃ s1 s2, s1 ∈ rules ∧ s2 ∈ rules ∧
        s1.segs = s2.segs ∧ s1.tag = t1 ∧ s2.tag = t2 := by
  intro rules
  induction rules with
  | nil => intro t1 t2 h; cases h
  | cons a rest ih =>
    intro t1 t2 h
    cases hfind : rest.find? (fun r2' => r2'.segs == a.segs && r2'.tag != a.tag) with
    | some y =>
      simp only [findConflict, hfind] at h
      cases h
      have hy := List.find?_some hfind
      have hmem := List.mem_of_find?_eq_some hfind
      simp only [Bool.and_eq_true, beq_iff_eq, bne_iff_ne] at hy
      exact ⟨fun h' => hy.2 h'.symm, a, y, List.mem_cons_self a rest,
        List.mem_cons_of_mem a hmem, hy.1.symm, rfl, rfl⟩
    | none =>
      simp only [findConflict, hfind] at h
      rcases ih h with ⟨hne, s1, s2, hm1, hm2, hseq, ht1, ht2⟩
      exact ⟨hne, s1, s2, List.mem_cons_of_mem a hm1,
        List.mem_cons_of_mem a hm2, hseq, ht1, ht2⟩

/-- The first complete traversal of a rule over the line built by
substituting good samples recovers exactly the sample bindings. -/
theorem find_parses_subst :
    ∀ {segs : List Seg} {vs : List (List Char)},
      goodSamples segs vs = true →
      (parses segs (substSegs segs vs)).find? (fun pr => pr.2.isEmpty)
        = some (zipFields segs vs, []) := by
  intro segs
  induction segs with
  | nil =>
    intro vs h
    cases vs with
    | nil => simp [parses, substSegs, zipFields]
    | cons v vs => simp [goodSamples] at h
  | cons seg rest ih =>
    intro vs h
    cases seg with
    | lit s =>
      have h' : goodSamples rest vs = true := by simpa [goodSamples] using h
      simpa [parses, substSegs, zipFields, dropLit_self_append] using ih h'
    | field nm ty =>
      cases vs with
      | nil => simp [goodSamples] at h
      | cons v vs =>
        simp only [goodSamples, Bool.and_eq_true, beq_iff_eq] at h
        obtain ⟨hhead, hgood⟩ := h
        cases hc : candidateSpans ty (v ++ substSegs rest vs) with
        | nil => rw [hc] at hhead; cases hhead
        | cons sp tailSp =>
          rw [hc] at hhead
          have hsp : sp = (v, substSegs rest vs) := by
            simpa [List.head?] using hhead
          subst hsp
          simp only [substSegs, parses, hc, List.flatMap_cons]
          rw [List.find?_append, List.find?_map]
          have hcomp :
              ((fun pr : Bindings × List Char => pr.2.isEmpty) ∘
                (fun pr : Bindings × List Char => ((nm, ty, v) :: pr.1, pr.2)))
                = (fun pr : Bindings × List Char => pr.2.isEmpty) := rfl
          rw [hcomp, ih hgood]
          simp [zipFields]

/-- The raw spans of the sample bindings are exactly the samples. -/
theorem zipFields_raws :
    ∀ {segs : List Seg} {vs : List (List Char)},
      goodSamples segs vs = true →
      (zipFields segs vs).map (fun b => b.2.2) = vs := by
  intro segs
  induction segs with
  | nil =>
    intro vs h
    cases vs with
    | nil => rfl
    | cons v vs => simp [goodSamples] at h
  | cons seg rest ih =>
    intro vs h
    cases seg with
    | lit s =>
      have h' : goodSamples rest vs = true := by simpa [goodSamples] using h
      simpa [zipFields] using ih h'
    | field nm ty =>
      cases vs with
      | nil => simp [goodSamples] at h
      | cons v vs =>
        simp only [goodSamples, Bool.and_eq_true] at h
        simpa [zipFields] using ih h.2

end Lognorm

namespace Binding

/-- Attribute collection succeeds exactly on the names the module
defines, and binds each collected name to the module's own object. -/
theorem collectAttrs_lookup {α : Type} {m : ExtModule α} :
    ∀ {names : List String} {ns : List (String × α)},
      collectAttrs m names = .ok ns →
      ∀ n ∈ names, nsLookup ns n = m.attrs n := by
  intro names
  induction names with
  | nil => intro ns _ n hn; cases hn
  | cons k rest ih =>
    intro ns h n hn
    cases hk : m.attrs k with
    | none => simp [collectAttrs, hk] at h
    | some v =>
      simp only [collectAttrs, hk] at h
      cases hr : collectAttrs m rest with
      | error e => rw [hr] at h; cases h
      | ok ns' =>
        rw [hr] at h
        cases h
        by_cases hkn : k = n
        · subst hkn
          simp [nsLookup, List.find?, hk]
        · rcases List.mem_cons.mp hn with rfl | hn'
          · exact absurd rfl hkn
          · have hbe : (k == n) = false := by simpa using hkn
            have : nsLookup ((k, v) :: ns') n = nsLookup ns' n := by
              simp [nsLookup, List.find?, hbe]
            rw [this]
            exact ih hr n hn'

/-- Attribute collection only succeeds when every requested name is
defined by the module. -/
theorem collectAttrs_isSome {α : Type} {m : ExtModule α} :
    ∀ {names : List String} {ns : List (String × α)},
      collectAttrs m names = .ok ns →
      ∀ n ∈ names, (m.attrs n).isSome = true := by
  intro names
  induction names with
  | nil => intro ns _ n hn; cases hn
  | cons k rest ih =>
    intro ns h n hn
    cases hk : m.attrs k with
    | none => simp [collectAttrs, hk] at h
    | some v =>
      simp only [collectAttrs, hk] at h
      cases hr : collectAttrs m rest with
      | error e => rw [hr] at h; cases h
      | ok ns' =>
        rcases List.mem_cons.mp hn with rfl | hn'
        · simp [hk]
        · exact ih hr n hn'

/-- When the module defines every requested name, attribute collection
succeeds. -/
theorem collectAttrs_total {α : Type} {m : ExtModule α} :
    ∀ {names : List String},
      (∀ n ∈ names, (m.attrs n).isSome = true) →
      ∃ ns, collectAttrs m names = .ok ns := by
  intro names
  induction names with
  | nil => intro _; exact ⟨[], rfl⟩
  | cons k rest ih =>
    intro h
    have hk := h k (List.mem_cons_self k rest)
    cases hmk : m.attrs k with
    | none => rw [hmk] at hk; cases hk
    | some v =>
      rcases ih (fun n hn => h n (List.mem_cons_of_mem k hn)) with ⟨ns', hns'⟩
      exact ⟨(k, v) :: ns', by simp [collectAttrs, hmk, hns']⟩

end Binding

open Lognorm Binding Setup Examples

/-- Claim C1, counterexample: the public interface of the packaged
binding (the `__all__` of src/__init__.py) does not expose the spec's
five error kinds: RuleSyntaxError is absent, ParserError is present,
and the exposed error names are not the claimed five. -/
theorem c1_public_error_names_counterexample :
    ("RuleSyntaxError" ∉ dunder_all) ∧ ("ParserError" ∈ dunder_all) ∧
    dunder_all.filter (fun n => n != "Lognorm") ≠ specErrorKinds := by
  decide

/-- Claim C1, amended: every error of the modelled core is one of the
five spec kinds (no operation swallows an error: all fallible core
operations return an Except over this closed error type), but the
repository's actual public interface exposes Lognorm plus the binding
error names Error, MemoryError, ConfigError, ParserError and RuleError,
none of which is one of the five spec kinds. -/
theorem c1_error_kinds_amended :
    (∀ e : CoreError, errorKindName e ∈ specErrorKinds) ∧
    (∀ n, n ∈ dunder_all → n ∉ specErrorKinds) := by
  constructor
  · intro e
    cases e <;> simp [errorKindName, specErrorKinds]
  · intro n hn
    simp only [dunder_all, List.mem_cons, List.not_mem_nil, or_false] at hn
    rcases hn with rfl | rfl | rfl | rfl | rfl | rfl <;> decide

/-- Claim C1, witness: a concrete core error has one of the five kinds,
and the concrete exported name MemoryError is not one of them. -/
theorem c1_error_kinds_witness :
    errorKindName (CoreError.duplicateType "ip") ∈ specErrorKinds ∧
    "MemoryError" ∉ specErrorKinds :=
  ⟨c1_error_kinds_amended.1 _, c1_error_kinds_amended.2 "MemoryError" (by decide)⟩

/-- Claim C2: for every compiled rule set and input line, match is
deterministic: two calls on the same pair return the same MatchResult. -/
theorem c2_match_deterministic (c : Compiled) (input : List Char)
    (r1 r2 : MatchResult)
    (h1 : lnMatch c input = r1) (h2 : lnMatch c input = r2) : r1 = r2 :=
  h1.symm.trans h2

/-- Claim C2, witness: determinism applied at a concrete set and line. -/
theorem c2_match_deterministic_witness :
    lnMatch detSet "zzz".toList = MatchResult.noMatch :=
  c2_match_deterministic detSet "zzz".toList _ .noMatch rfl (by decide)

/-- Claim C3, counterexample: for the rule `%a:number%%b:number%` with
the valid sample value 42 for both fields, the constructed line is
"4242", yet matching returns Matched with a=424 and b=2, not the
substituted values: the round trip fails as literally stated. -/
theorem c3_round_trip_counterexample :
    validSample .number ['4', '2'] = true ∧
    compile [adjRule] = .ok adjCompiled ∧
    substSegs adjRule.segs [['4', '2'], ['4', '2']] = "4242".toList ∧
    lnMatch adjCompiled "4242".toList
      = .matched "t" (buildFields
          [("a", .number, ['4', '2', '4']), ("b", .number, ['2'])]) ∧
    lnMatch adjCompiled "4242".toList
      ≠ .matched "t"
          (buildFields (zipFields adjRule.segs [['4', '2'], ['4', '2']])) :=
  ⟨by decide, rfl, by decide, by decide, by decide⟩

/-- Claim C3, amended: for every rule whose fields are all non-rest
fixed-format types, substituting one valid sample value per placeholder
such that at each placeholder the sample is the first (longest)
candidate span its type recognizes at that position in the constructed
line, matching the line against the compiled singleton rule set returns
Matched with exactly those substituted values recovered as the raw
extracted fields. -/
theorem c3_round_trip_amended (tag : String) (segs : List Seg)
    (vs : List (List Char)) (c : Compiled)
    (_hnr : allNonRest segs = true) (hgs : goodSamples segs vs = true)
    (hc : compile [⟨tag, segs⟩] = .ok c) :
    lnMatch c (substSegs segs vs)
      = .matched tag (buildFields (zipFields segs vs)) ∧
    (buildFields (zipFields segs vs)).map FieldOut.raw = vs := by
  have hrules : c.rules = [⟨tag, segs⟩] := compile_ok hc
  constructor
  · unfold lnMatch
    rw [hrules]
    have hm : matchRule ⟨tag, segs⟩ (substSegs segs vs)
        = some (zipFields segs vs) := by
      unfold matchRule
      rw [show (⟨tag, segs⟩ : Rule).segs = segs from rfl, find_parses_subst hgs]
      rfl
    simp [lnMatchGo, hm]
  · calc (buildFields (zipFields segs vs)).map FieldOut.raw
        = (zipFields segs vs).map (fun b => b.2.2) := by
          simp only [buildFields, List.map_map]
          rfl
      _ = vs := zipFields_raws hgs

/-- Claim C3, witness: the amended round trip applied to the concrete
rule `%a:number% end` with sample 42. -/
theorem c3_round_trip_witness :
    lnMatch ⟨[rtRule]⟩ (substSegs rtSegs rtVals)
      = .matched "t" (buildFields (zipFields rtSegs rtVals)) :=
  (c3_round_trip_amended "t" rtSegs rtVals ⟨[rtRule]⟩
    (by decide) (by decide) rfl).1

/-- Claim C4: the rule `%year:number%-%month:number%-%day:number%
%msg:rest%` matching "2024-03-10 disk failure" yields Matched with
year=2024, month=3, day=10 (number fields type-converted to integers,
"03" yielding 3) and msg="disk failure". -/
theorem c4_concrete_scenario :
    (loadRules
        [("r1", "%year:number%-%month:number%-%day:number% %msg:rest%")]).map
        (fun c => normalize c "2024-03-10 disk failure")
      = .ok (.matched "r1"
          [⟨"year", .number, "2024".toList, .vInt 2024⟩,
           ⟨"month", .number, "03".toList, .vInt 3⟩,
           ⟨"day", .number, "10".toList, .vInt 10⟩,
           ⟨"msg", .rest, "disk failure".toList, .vStr "disk failure"⟩]) := by
  rfl

/-- Claim C5: whenever the rule list contains two rules with identical
segment sequences but different tags, compile fails with CompileError
carrying a pair of actually conflicting rule tags, at compile time: the
compiled structure is never produced. -/
theorem c5_compile_conflict (rules : List Rule)
    (h : ∃ r1 r2, r1 ∈ rules ∧ r2 ∈ rules ∧
        r1.segs = r2.segs ∧ r1.tag ≠ r2.tag) :
    (∃ t1 t2, compile rules = .error (.compileConflict t1 t2) ∧ t1 ≠ t2 ∧
        ∃ s1 s2, s1 ∈ rules ∧ s2 ∈ rules ∧ s1.segs = s2.segs ∧
          s1.tag = t1 ∧ s2.tag = t2) ∧
    ∀ c, compile rules ≠ .ok c := by
  rcases h with ⟨r1, r2, hm1, hm2, hs, ht⟩
  have hsome := findConflict_isSome hm1 hm2 hs ht
  cases hf : findConflict rules with
  | none => rw [hf] at hsome; cases hsome
  | some p =>
    obtain ⟨t1, t2⟩ := p
    rcases findConflict_spec hf with ⟨hne, s1, s2, hh⟩
    constructor
    · exact ⟨t1, t2, by simp [compile, hf], hne, s1, s2, hh⟩
    · intro c hc
      simp [compile, hf] at hc

/-- Claim C5, witness: two structurally identical rules tagged alpha and
beta make compile fail to produce the structure. -/
theorem c5_compile_conflict_witness :
    compile conflictRules ≠ .ok ⟨conflictRules⟩ :=
  (c5_compile_conflict conflictRules
    ⟨ruleAlpha, ruleBeta, by decide, by decide, rfl, by decide⟩).2 ⟨conflictRules⟩

/-- Claim C6: match returns Matched only when a rule's traversal
consumed the entire input at the rule's end; when every traversal of
every rule leaves input over, match returns NoMatch; and a rule whose
last segment is a rest field always consumes the input to end-of-line. -/
theorem c6_full_consumption (c : Compiled) (input : List Char) :
    (∀ tag flds, lnMatch c input = .matched tag flds →
        ∃ r, r ∈ c.rules ∧ r.tag = tag ∧
          ∃ pr, pr ∈ parses r.segs input ∧ pr.2 = [] ∧
            flds = buildFields pr.1) ∧
    ((∀ r, r ∈ c.rules → ∀ pr, pr ∈ parses r.segs input → pr.2 ≠ []) →
        lnMatch c input = .noMatch) ∧
    (∀ r, r ∈ c.rules → lastIsRest r.segs = true →
        ∀ pr, pr ∈ parses r.segs input → pr.2 = []) := by
  refine ⟨?_, ?_, ?_⟩
  · intro tag flds h
    exact lnMatchGo_matched h
  · intro h
    apply lnMatchGo_none
    intro r hr
    have hnone : (parses r.segs input).find? (fun pr => pr.2.isEmpty) = none :=
      List.find?_eq_none.mpr (fun pr hpr => by
        simp only [List.isEmpty_iff]
        exact h r hr pr hpr)
    simp [matchRule, hnone]
  · intro r _ hrest pr hpr
    exact parses_lastRest hrest hpr

/-- Claim C6, witness: against a rule consuming only "ab", the line
"abc" leaves input over in every traversal, so match returns NoMatch. -/
theorem c6_full_consumption_witness :
    lnMatch partialSet "abc".toList = MatchResult.noMatch :=
  (c6_full_consumption partialSet "abc".toList).2.1 (by decide)

/-- Claim C7: appending a rule that shares a literal prefix with a rule
of the set does not change the match result for a line that some rule
of the original set already matches and the new rule does not. -/
theorem c7_rule_addition_monotone (R : List Rule) (r : Rule)
    (input : List Char) (c1 c2 : Compiled)
    (_hshare : sharesLitHead r R = true)
    (h1 : compile R = .ok c1) (h2 : compile (R ++ [r]) = .ok c2)
    (hex : ∃ r0, r0 ∈ R ∧ (matchRule r0 input).isSome = true)
    (_hnew : matchRule r input = none) :
    lnMatch c2 input = lnMatch c1 input := by
  have e1 : c1.rules = R := compile_ok h1
  have e2 : c2.rules = R ++ [r] := compile_ok h2
  unfold lnMatch
  rw [e1, e2]
  exact lnMatchGo_append [r] hex

/-- Claim C7, witness: adding the rule "ax" beside the rule "ab" leaves
the result for the line "ab" unchanged. -/
theorem c7_rule_addition_monotone_witness :
    lnMatch ⟨baseRules ++ [newRule]⟩ "ab".toList
      = lnMatch ⟨baseRules⟩ "ab".toList :=
  c7_rule_addition_monotone baseRules newRule "ab".toList
    ⟨baseRules⟩ ⟨baseRules ++ [newRule]⟩ (by decide) rfl rfl
    ⟨⟨"r1", [Seg.lit ['a', 'b']]⟩, by decide, by decide⟩ (by decide)

/-- Claim C8: a line that matches no rule yields the ordinary NoMatch
value; the matcher is a total function into MatchResult, so no
exception or panic is possible. -/
theorem c8_nomatch_is_normal (c : Compiled) (input : List Char)
    (h : ∀ r, r ∈ c.rules → matchRule r input = none) :
    lnMatch c input = .noMatch :=
  lnMatchGo_none h

/-- Claim C8, witness: "completely unrelated text" against a rule set
lacking a catch-all returns NoMatch. -/
theorem c8_nomatch_is_normal_witness :
    lnMatch noCatchAllSet "completely unrelated text".toList
      = MatchResult.noMatch :=
  c8_nomatch_is_normal noCatchAllSet "completely unrelated text".toList
    (by decide)

/-- Claim C9: pkg_config_flags returns the empty list, rather than
raising, whenever pkg-config is absent (FileNotFoundError) or exits
non-zero (CalledProcessError), and returns the shlex-tokenized stripped
stdout when the call succeeds and tokenizes. -/
theorem c9_pkg_config_flags_total
    (runner : String → String → SubprocResult) (package flag : String) :
    ((runner flag package = .fileNotFound ∨
        ∃ code, runner flag package = .calledProcessError code) →
      pkg_config_flags runner package flag = .ok []) ∧
    (∀ out toks, runner flag package = .output out →
        shlexSplit (stripChars out.toList) = some toks →
        pkg_config_flags runner package flag = .ok toks) := by
  constructor
  · intro h
    rcases h with h | ⟨code, h⟩ <;> simp [pkg_config_flags, h]
  · intro out toks hout htoks
    have htoks2 : shlexSplit (stripChars out.data) = some toks := htoks
    simp [pkg_config_flags, hout, htoks2]

/-- Claim C9, witness: a machine whose pkg-config prints two flags
yields the two tokens; a machine without pkg-config yields []. -/
theorem c9_pkg_config_flags_total_witness :
    pkg_config_flags runnerOk "lognorm" "--cflags"
      = .ok ["-I/usr/include", "-llognorm"] ∧
    pkg_config_flags runnerMissing "lognorm" "--libs" = .ok [] :=
  ⟨(c9_pkg_config_flags_total runnerOk "lognorm" "--cflags").2
      "-I/usr/include -llognorm" ["-I/usr/include", "-llognorm"] rfl (by decide),
   (c9_pkg_config_flags_total runnerMissing "lognorm" "--libs").1 (Or.inl rfl)⟩

/-- Claim C10: the package's public interface (`__all__`) is exactly the
six names of the from-import; importing succeeds exactly when the
extension is present and defines all six names; each name is re-exported
unchanged; and the exported MemoryError shadows the builtin within the
package namespace. -/
theorem c10_binding_exports :
    List.Perm dunder_all importedNames ∧
    (∀ (α : Type) (ext : Option (ExtModule α)),
        (∃ ns, initPackage ext = .ok ns) ↔
          (∃ m, ext = some m ∧
            ∀ n ∈ importedNames, (m.attrs n).isSome = true)) ∧
    (∀ (α : Type) (m : ExtModule α) (ns : List (String × α)),
        initPackage (some m) = .ok ns →
        ∀ n ∈ importedNames, nsLookup ns n = m.attrs n) ∧
    (∀ (α : Type) (m : ExtModule α) (ns : List (String × α))
        (builtins : String → Option α),
        initPackage (some m) = .ok ns →
        resolveName ns builtins "MemoryError" = m.attrs "MemoryError" ∧
          (m.attrs "MemoryError").isSome = true) := by
  refine ⟨by decide, ?_, ?_, ?_⟩
  · intro α ext
    constructor
    · rintro ⟨ns, hns⟩
      cases ext with
      | none => cases hns
      | some m => exact ⟨m, rfl, collectAttrs_isSome hns⟩
    · rintro ⟨m, rfl, hall⟩
      rcases collectAttrs_total hall with ⟨ns, hns⟩
      exact ⟨ns, hns⟩
  · intro α m ns hns n hn
    exact collectAttrs_lookup hns n hn
  · intro α m ns builtins hns
    have hmem : "MemoryError" ∈ importedNames := by decide
    have hl := collectAttrs_lookup (m := m) hns "MemoryError" hmem
    have hs := collectAttrs_isSome (m := m) hns "MemoryError" hmem
    constructor
    · unfold resolveName
      rw [hl]
      cases hms : m.attrs "MemoryError" with
      | none => rw [hms] at hs; cases hs
      | some v => simp
    · exact hs

/-- Claim C10, witness: against a concrete extension defining all six
names, resolution of MemoryError inside the package returns the
extension's object even though the builtins bind the name too. -/
theorem c10_binding_exports_witness :
    resolveName nsFull builtinsAll "MemoryError" = extFull.attrs "MemoryError" ∧
    (extFull.attrs "MemoryError").isSome = true :=
  c10_binding_exports.2.2.2 Nat extFull nsFull builtinsAll rfl
